import Mathlib

/-!
Formal model of the XML transcoding core of the wFirma SDK
(`wfirma_sdk/client.py` and `wfirma_sdk/exceptions.py`): the request
encoders, the recursive XML response decoder, envelope unwrapping,
status interpretation, authentication selection, header injection and
query-parameter assembly. Every definition follows the Python source;
theorems at the end settle the specification's claims.
-/

set_option autoImplicit false

/-- ASCII whitespace, the character class stripped by Python's `str.strip()`
and `bytes.strip()` on the data this SDK handles. -/
def isSpaceChar (c : Char) : Bool :=
  c = ' ' || c = '\t' || c = '\n' || c = '\x0d' || c = '\x0b' || c = '\x0c'

/-- Python's `s.strip()`: drop leading and trailing whitespace. -/
def pyStrip (s : String) : String :=
  String.mk (((s.data.dropWhile isSpaceChar).reverse.dropWhile isSpaceChar).reverse)

/-- An XML element as exposed by `xml.etree.ElementTree`: a tag, its text
content (Python `None` text is modelled as `""`, matching the source's
`(elem.text or "")`), and the list of child elements in document order. -/
inductive XmlElem where
  | mk (tag : String) (text : String) (children : List XmlElem)

def XmlElem.tag : XmlElem → String
  | XmlElem.mk t _ _ => t

def XmlElem.text : XmlElem → String
  | XmlElem.mk _ s _ => s

def XmlElem.children : XmlElem → List XmlElem
  | XmlElem.mk _ _ cs => cs

/-- A decoded Python value as produced by `_etree_to_dict` and consumed by
`_request`: a string, a list, or an insertion-ordered `dict` (modelled as an
association list whose keys are unique by construction). -/
inductive DVal where
  | str (s : String)
  | lst (l : List DVal)
  | dict (entries : List (String × DVal))

/-- First-match association-list lookup, the model of Python `dict.get` /
`dict[k]` on our unique-key association lists. -/
def alookup {α : Type} (t : String) : List (String × α) → Option α
  | [] => none
  | (k, v) :: rest => if k = t then some v else alookup t rest

/-- One step of the source's `grouped.setdefault(c.tag, []).append(c)` loop
(over already-decoded pairs): append the value to the group of its key if the
key is present, otherwise start a new group at the end. -/
def insertPair : List (String × List DVal) → String × DVal → List (String × List DVal)
  | [], (t, v) => [(t, [v])]
  | (t', vs) :: rest, (t, v) =>
      if t' = t then (t', vs ++ [v]) :: rest
      else (t', vs) :: insertPair rest (t, v)

/-- Group a list of tag/value pairs by tag, preserving first-occurrence key
order and document order inside each group — the `grouped` dict of
`_etree_to_dict`. -/
def groupPairs (ps : List (String × DVal)) : List (String × List DVal) :=
  ps.foldl insertPair []

/-- The source's two-branch rule on group cardinality: a single-element group
yields the element itself, a larger group yields the list. (Groups are never
empty, so the `[]` case is unreachable.) -/
def collapseVals : List DVal → DVal
  | [v] => v
  | vs => DVal.lst vs

/-- Build the output dict of `_etree_to_dict` from the decoded child pairs:
group by tag, then collapse singleton groups. -/
def buildDict (ps : List (String × DVal)) : List (String × DVal) :=
  (groupPairs ps).map (fun g => (g.1, collapseVals g.2))

mutual

/-- Embedding of `WFirmaAPIClient._etree_to_dict`: an element with no children decodes to
its trimmed text; an element with children decodes to a dict grouping the
recursively decoded children by tag (singleton groups unwrapped, larger
groups as lists in document order). -/
def etree_to_dict : XmlElem → DVal
  | XmlElem.mk _ text [] => DVal.str (pyStrip text)
  | XmlElem.mk _ _ (c :: cs) => DVal.dict (buildDict (decodeChildren (c :: cs)))
termination_by structural e => e

/-- Decode each child, pairing it with its tag (document order). -/
def decodeChildren : List XmlElem → List (String × DVal)
  | [] => []
  | c :: cs => (c.tag, etree_to_dict c) :: decodeChildren cs
termination_by structural cs => cs

end

/-- Embedding of `WFirmaAPIClient._wrap_module_body`: build
`<api><module><record><k>v</k>...</record></module></api>`. The `fields`
list models the Python dict items (unique keys, insertion order) after the
source's `str(v)` stringification of each value. -/
def wrap_module_body (module_plural record_name : String)
    (fields : List (String × String)) : XmlElem :=
  XmlElem.mk "api" ""
    [XmlElem.mk module_plural ""
      [XmlElem.mk record_name ""
        (fields.map (fun kv => XmlElem.mk kv.1 kv.2 []))]]

/-- Project the record element out of a wrapped body
(`<api>` → module → record); identity fallback on other shapes. -/
def recordOf (e : XmlElem) : XmlElem :=
  match e.children with
  | [m] =>
    match m.children with
    | [r] => r
    | _ => e
  | _ => e

/-- Embedding of `WFirmaAPIClient._build_parameters_xml`: emit `<parameters>` with an
optional `<page>`, then an optional `<limit>`, then — only when the field
list is truthy (`if fields:`) — a `<fields>` element with one `<field>` per
entry. -/
def build_parameters_xml (module_plural : String) (page limit : Option Int)
    (fields : Option (List String)) : XmlElem :=
  let cs1 : List XmlElem :=
    match page with
    | some p => [XmlElem.mk "page" (toString p) []]
    | none => []
  let cs2 : List XmlElem :=
    match limit with
    | some l => [XmlElem.mk "limit" (toString l) []]
    | none => []
  let cs3 : List XmlElem :=
    match fields with
    | some (f :: fs) =>
        [XmlElem.mk "fields" "" ((f :: fs).map (fun x => XmlElem.mk "field" x []))]
    | _ => []
  XmlElem.mk "api" ""
    [XmlElem.mk module_plural "" [XmlElem.mk "parameters" "" (cs1 ++ cs2 ++ cs3)]]

/-- Project the children of the `<parameters>` element out of a built body. -/
def parametersChildren (e : XmlElem) : List XmlElem :=
  match e.children with
  | [m] =>
    match m.children with
    | [p] => p.children
    | _ => []
  | _ => []

/-- Python truthiness of an `Optional[str]`: `None` and `""` are falsy. -/
def optTruthy : Option String → Bool
  | some s => !(s == "")
  | none => false

/-- The `_HeaderAuth` object: the four credential slots it stores. -/
structure HeaderAuth where
  access_key : Option String
  secret_key : Option String
  app_key : Option String
  bearer : Option String

/-- The credential-relevant constructor arguments of `WFirmaAPIClient`. -/
structure ClientConfig where
  company_id : Option String
  access_key : Option String
  secret_key : Option String
  app_key : Option String
  oauth2_token : Option String

/-- Outcome of the constructor's auth decision: a configured `_HeaderAuth`,
or the `WFirmaAuthError` raised before any request can be attempted. -/
inductive InitResult where
  | ok (auth : HeaderAuth)
  | authError (msg : String)

/-- The auth decision in `WFirmaAPIClient.__init__`: a truthy OAuth2 token
wins, else a fully truthy key trio, else `WFirmaAuthError`. -/
def decideAuth (cfg : ClientConfig) : InitResult :=
  if optTruthy cfg.oauth2_token then
    InitResult.ok ⟨none, none, none, cfg.oauth2_token⟩
  else if optTruthy cfg.access_key && optTruthy cfg.secret_key && optTruthy cfg.app_key then
    InitResult.ok ⟨cfg.access_key, cfg.secret_key, cfg.app_key, none⟩
  else
    InitResult.authError
      "Provide either OAuth2 token or API Key trio (accessKey/secretKey/appKey)."

/-- ASCII lower-casing of one character, as header names are compared. -/
def lowerChar (c : Char) : Char :=
  if 65 <= c.toNat && c.toNat <= 90 then Char.ofNat (c.toNat + 32) else c

/-- ASCII lower-casing of a header name (httpx normalises header names
case-insensitively). -/
def asciiLower (s : String) : String :=
  String.mk (s.data.map lowerChar)

/-- Set a header, replacing an existing entry under httpx's case-insensitive
header-name semantics. -/
def headerSet : List (String × String) → String → String → List (String × String)
  | [], k, v => [(k, v)]
  | (k', v') :: rest, k, v =>
      if asciiLower k' = asciiLower k then (k, v) :: rest
      else (k', v') :: headerSet rest k v

/-- Case-insensitive header lookup (httpx `Headers.__getitem__` / `in`). -/
def headerLookup : List (String × String) → String → Option String
  | [], _ => none
  | (k', v) :: rest, k =>
      if asciiLower k' = asciiLower k then some v else headerLookup rest k

/-- Embedding of `_HeaderAuth.auth_flow`: with a truthy bearer token set only
`Authorization: Bearer <token>`; otherwise set each of the three key headers
that is truthy. -/
def auth_flow (a : HeaderAuth) (hs : List (String × String)) : List (String × String) :=
  if optTruthy a.bearer then
    headerSet hs "Authorization" ("Bearer " ++ a.bearer.getD "")
  else
    let h1 := if optTruthy a.access_key then headerSet hs "accessKey" (a.access_key.getD "") else hs
    let h2 := if optTruthy a.secret_key then headerSet h1 "secretKey" (a.secret_key.getD "") else h1
    if optTruthy a.app_key then headerSet h2 "appKey" (a.app_key.getD "") else h2

/-- Python `dict` assignment `q[k] = v`: overwrite in place if the key
exists, else append. -/
def dictSet : List (String × String) → String → String → List (String × String)
  | [], k, v => [(k, v)]
  | (k', v') :: rest, k, v =>
      if k' = k then (k, v) :: rest else (k', v') :: dictSet rest k v

/-- Python `q.update(ps)`: assign each pair of `ps` in order. -/
def dictUpdate (q : List (String × String)) (ps : List (String × String)) : List (String × String) :=
  ps.foldl (fun acc p => dictSet acc p.1 p.2) q

/-- The constructor's default header dict (`Accept`, `Content-Type`) merged
with the caller-supplied `headers` (`{**base, **(headers or {})}`). -/
def clientHeaders (user : List (String × String)) : List (String × String) :=
  dictUpdate
    [("Accept", "application/xml"), ("Content-Type", "application/xml; charset=utf-8")]
    user

/-- Python `s.startswith(pre)` on the underlying character list. -/
def strStarts (s pre : String) : Bool :=
  s.data.take pre.data.length == pre.data

/-- The query assembly at the top of `WFirmaAPIClient._request` starts from
the fixed format flags. -/
def baseQuery : List (String × String) :=
  [("inputFormat", "xml"), ("outputFormat", "xml")]

/-- The step `if self.company_id: q["company_id"] = self.company_id`. -/
def withCompany (company_id : Option String) (q : List (String × String)) :
    List (String × String) :=
  if optTruthy company_id then dictSet q "company_id" (company_id.getD "") else q

/-- The `oauth_version` step of `_request`: the param is added only when the
CLIENT-level default headers already hold a `Bearer` Authorization header —
the per-request auth flow never touches `self._client.headers`. -/
def withOauthVersion (clientHdrs : List (String × String)) (q : List (String × String)) :
    List (String × String) :=
  match headerLookup clientHdrs "Authorization" with
  | some v => if strStarts v "Bearer " then dictSet q "oauth_version" "2" else q
  | none => q

def buildQuery (company_id : Option String) (clientHdrs : List (String × String))
    (params : List (String × String)) : List (String × String) :=
  dictUpdate (withOauthVersion clientHdrs (withCompany company_id baseQuery)) params

/-- The single quote character, used by Python `repr` of strings. -/
def pyQuote : String := String.mk ['\x27']

mutual

/-- Python `repr` of a decoded value (quote escaping inside string contents
is not modelled; no claim inspects it). -/
def pyRepr : DVal → String
  | DVal.str s => pyQuote ++ s ++ pyQuote
  | DVal.lst l => "[" ++ pyReprList l ++ "]"
  | DVal.dict d => "\x7b" ++ pyReprEntries d ++ "\x7d"
termination_by structural v => v

/-- Comma-joined `repr` of list elements. -/
def pyReprList : List DVal → String
  | [] => ""
  | [v] => pyRepr v
  | v :: vs => pyRepr v ++ ", " ++ pyReprList vs
termination_by structural l => l

/-- Comma-joined `repr` of dict entries. -/
def pyReprEntries : List (String × DVal) → String
  | [] => ""
  | [(k, v)] => pyQuote ++ k ++ pyQuote ++ ": " ++ pyRepr v
  | (k, v) :: rest => pyQuote ++ k ++ pyQuote ++ ": " ++ pyRepr v ++ ", " ++ pyReprEntries rest
termination_by structural l => l

end

/-- Python `str()` of a decoded value, as interpolated by the f-string in
the status check: a string stays itself, containers use `repr`. -/
def pyStr : DVal → String
  | DVal.str s => s
  | DVal.lst l => pyRepr (DVal.lst l)
  | DVal.dict d => pyRepr (DVal.dict d)

/-- Python truthiness of a decoded value. -/
def pyTruthy : DVal → Bool
  | DVal.str s => !(s == "")
  | DVal.lst l => !l.isEmpty
  | DVal.dict d => !d.isEmpty

/-- Python `==` between a decoded value and a string literal (used by
`status_code not in ("OK", "NO_CONTENT")`): containers never equal a str. -/
def isStrEq : DVal → String → Bool
  | DVal.str t, s => t == s
  | _, _ => false

/-- The payload slot of `WFirmaAPIError`: `None`, a decoded mapping, or the
raw response bytes. -/
inductive Payload where
  | nothing
  | decoded (d : DVal)
  | raw (bytes : String)

/-- Embedding of `WFirmaAPIError(status_code, message, payload)`. -/
structure ApiError where
  status_code : Nat
  message : String
  payload : Payload

/-- Result of one `_request` response handling: a decoded success value, a
raised `WFirmaAPIError`, or the `AttributeError` Python would raise when a
non-dict decode reaches `data_dict.get("status")`. -/
inductive Outcome where
  | ok (d : DVal)
  | apiError (e : ApiError)
  | typeError

/-- The extraction of `status.code` in `_request`: only a `status` entry
that is itself a dict contributes a code. -/
def statusCodeOf (entries : List (String × DVal)) : Option DVal :=
  match alookup "status" entries with
  | some (DVal.dict d) => alookup "code" d
  | _ => none

/-- The status check at the end of `_request`: a truthy code other than
`"OK"`/`"NO_CONTENT"` raises `WFirmaAPIError` with the HTTP status, a
message embedding the code, and the decoded payload; otherwise the decoded
mapping is returned. -/
def statusCheckOutcome (httpStatus : Nat) (entries : List (String × DVal)) : Outcome :=
  match statusCodeOf entries with
  | some c =>
      if pyTruthy c && !(isStrEq c "OK") && !(isStrEq c "NO_CONTENT") then
        Outcome.apiError
          ⟨httpStatus, "API status != OK: " ++ pyStr c, Payload.decoded (DVal.dict entries)⟩
      else Outcome.ok (DVal.dict entries)
  | none => Outcome.ok (DVal.dict entries)

/-- Python `dict.setdefault(k, v)`: insert only when the key is absent. -/
def setdefaultD (d : List (String × DVal)) (k : String) (v : DVal) : List (String × DVal) :=
  if d.any (fun p => p.1 == k) then d else d ++ [(k, v)]

/-- Envelope unwrapping in `_request`: for each immediate child of `<api>`,
`data_dict.setdefault(child.tag, _etree_to_dict(child))` — first tag wins. -/
def apiUnwrap (cs : List XmlElem) : List (String × DVal) :=
  cs.foldl (fun d c => setdefaultD d c.tag (etree_to_dict c)) []

/-- The decoded `data_dict` of `_request`: unwrap an `<api>` root child by
child (first-wins), decode any other root directly. -/
def dataDictOf (root : XmlElem) : DVal :=
  if root.tag = "api" then DVal.dict (apiUnwrap root.children) else etree_to_dict root

/-- httpx `Response.is_success`: 2xx. -/
def isSuccessStatus (n : Nat) : Bool :=
  decide (200 ≤ n) && decide (n < 300)

/-- Result of `ET.fromstring` on a non-empty body, supplied as an oracle
(the XML parser itself is outside the SDK). -/
inductive ParseResult where
  | failure (msg : String)
  | success (root : XmlElem)

/-- The response-handling tail of `WFirmaAPIClient._request`, from
`content = (resp.content or b"").strip()` onwards: empty-body handling,
parse-failure handling, envelope unwrapping and the status check. -/
def processResponse (httpStatus : Nat) (body : String) (parse : ParseResult) : Outcome :=
  let content := pyStrip body
  if content = "" then
    if !(isSuccessStatus httpStatus) then
      Outcome.apiError ⟨httpStatus, "HTTP error without body", Payload.nothing⟩
    else
      Outcome.ok (DVal.dict [("status", DVal.dict [("code", DVal.str "NO_CONTENT")])])
  else
    match parse with
    | ParseResult.failure msg =>
        Outcome.apiError ⟨httpStatus, "Failed to parse XML: " ++ msg, Payload.raw content⟩
    | ParseResult.success root =>
        match dataDictOf root with
        | DVal.dict entries => statusCheckOutcome httpStatus entries
        | _ => Outcome.typeError

/-- Python `data_dict.get(t)` on a decoded value: only dicts have entries. -/
def dlookup (t : String) : DVal → Option DVal
  | DVal.dict es => alookup t es
  | _ => none

/-- The values carried by key `t` in a pair list, in order. -/
def valuesOf (t : String) (ps : List (String × DVal)) : List DVal :=
  (ps.filter (fun p => p.1 == t)).map Prod.snd

/-- The binding a Python `dict.update(ps)` loop leaves for key `t`: the last
matching pair of `ps`, if any. -/
def lastLookup (t : String) : List (String × String) → Option String
  | [] => none
  | (k, v) :: rest =>
      match lastLookup t rest with
      | some w => some w
      | none => if k = t then some v else none

@[simp] theorem XmlElem.tag_mk (t s : String) (cs : List XmlElem) :
    (XmlElem.mk t s cs).tag = t := rfl

@[simp] theorem XmlElem.text_mk (t s : String) (cs : List XmlElem) :
    (XmlElem.mk t s cs).text = s := rfl

@[simp] theorem XmlElem.children_mk (t s : String) (cs : List XmlElem) :
    (XmlElem.mk t s cs).children = cs := rfl

@[simp] theorem etree_to_dict_leaf (t s : String) :
    etree_to_dict (XmlElem.mk t s []) = DVal.str (pyStrip s) := by
  rw [etree_to_dict]

@[simp] theorem etree_to_dict_node (t s : String) (c : XmlElem) (cs : List XmlElem) :
    etree_to_dict (XmlElem.mk t s (c :: cs)) =
      DVal.dict (buildDict (decodeChildren (c :: cs))) := by
  rw [etree_to_dict]

@[simp] theorem decodeChildren_nil : decodeChildren [] = [] := by
  rw [decodeChildren]

@[simp] theorem decodeChildren_cons (c : XmlElem) (cs : List XmlElem) :
    decodeChildren (c :: cs) = (c.tag, etree_to_dict c) :: decodeChildren cs := by
  rw [decodeChildren]

theorem alookup_insertPair (acc : List (String × List DVal)) (t k : String) (v : DVal) :
    alookup t (insertPair acc (k, v)) =
      if k = t then some ((alookup t acc).getD [] ++ [v]) else alookup t acc := by
  induction acc with
  | nil =>
      by_cases h : k = t <;> simp [insertPair, alookup, h]
  | cons g rest ih =>
      obtain ⟨k', vs⟩ := g
      by_cases h1 : k' = k
      · subst h1
        by_cases h2 : k' = t <;> simp [insertPair, alookup, h2]
      · by_cases h2 : k' = t
        · subst h2
          have hkt : ¬ k = k' := fun h => h1 h.symm
          simp [insertPair, alookup, h1, hkt]
        · simp [insertPair, alookup, h1, h2, ih]

theorem valuesOf_cons (t k : String) (v : DVal) (ps : List (String × DVal)) :
    valuesOf t ((k, v) :: ps) =
      if k = t then v :: valuesOf t ps else valuesOf t ps := by
  by_cases h : k = t
  · simp [valuesOf, List.filter, h]
  · have hb : (k == t) = false := by simp [h]
    simp [valuesOf, List.filter, h, hb]

theorem alookup_foldl_insertPair (ps : List (String × DVal))
    (acc : List (String × List DVal)) (t : String) :
    alookup t (ps.foldl insertPair acc) =
      match alookup t acc, valuesOf t ps with
      | none, [] => none
      | none, vs => some vs
      | some us, vs => some (us ++ vs) := by
  induction ps generalizing acc with
  | nil =>
      cases h : alookup t acc <;> simp [valuesOf, h]
  | cons p rest ih =>
      obtain ⟨k, v⟩ := p
      rw [List.foldl_cons, ih, valuesOf_cons]
      by_cases hk : k = t
      · rw [alookup_insertPair]
        cases h : alookup t acc <;>
          cases hv : valuesOf t rest <;>
            simp [hk, h, hv]
      · rw [alookup_insertPair]
        cases h : alookup t acc <;> simp [hk, h]

theorem alookup_groupPairs (ps : List (String × DVal)) (t : String) :
    alookup t (groupPairs ps) =
      match valuesOf t ps with
      | [] => none
      | vs => some vs := by
  rw [groupPairs, alookup_foldl_insertPair]
  cases hv : valuesOf t ps <;> simp [alookup]

theorem alookup_map_collapse (l : List (String × List DVal)) (t : String) :
    alookup t (l.map (fun g => (g.1, collapseVals g.2))) =
      (alookup t l).map collapseVals := by
  induction l with
  | nil => simp [alookup]
  | cons g rest ih =>
      by_cases h : g.1 = t <;> simp [alookup, h, ih]

theorem alookup_buildDict (ps : List (String × DVal)) (t : String) :
    alookup t (buildDict ps) =
      match valuesOf t ps with
      | [] => none
      | vs => some (collapseVals vs) := by
  rw [buildDict, alookup_map_collapse, alookup_groupPairs]
  cases hv : valuesOf t ps <;> simp

theorem decodeChildren_eq_map (cs : List XmlElem) :
    decodeChildren cs = cs.map (fun c => (c.tag, etree_to_dict c)) := by
  induction cs with
  | nil => simp
  | cons c rest ih => simp [ih]

theorem valuesOf_decodeChildren (t : String) (cs : List XmlElem) :
    valuesOf t (decodeChildren cs) =
      (cs.filter (fun c => c.tag == t)).map etree_to_dict := by
  induction cs with
  | nil => simp [valuesOf]
  | cons c rest ih =>
      rw [decodeChildren_cons, valuesOf_cons]
      by_cases h : c.tag = t
      · simp [List.filter, h, ih]
      · have hb : (c.tag == t) = false := by simp [h]
        simp [List.filter, hb, ih, h]

theorem insertPair_of_fresh (acc : List (String × List DVal)) (k : String) (v : DVal)
    (h : ∀ g ∈ acc, g.1 ≠ k) :
    insertPair acc (k, v) = acc ++ [(k, [v])] := by
  induction acc with
  | nil => simp [insertPair]
  | cons g rest ih =>
      obtain ⟨k', vs⟩ := g
      have hk : k' ≠ k := h (k', vs) (List.mem_cons_self _ _)
      simp [insertPair, hk, ih (fun g hg => h g (List.mem_cons_of_mem _ hg))]

theorem foldl_insertPair_of_nodup (ps : List (String × DVal)) :
    ∀ acc : List (String × List DVal),
      (ps.map Prod.fst).Nodup →
      (∀ k ∈ ps.map Prod.fst, ∀ g ∈ acc, g.1 ≠ k) →
      ps.foldl insertPair acc = acc ++ ps.map (fun p => (p.1, [p.2])) := by
  induction ps with
  | nil => intro acc _ _; simp
  | cons p rest ih =>
      intro acc hnd hfresh
      obtain ⟨k, v⟩ := p
      have hnd' : (k :: rest.map Prod.fst).Nodup := by simpa using hnd
      have hkrest : k ∉ rest.map Prod.fst := (List.nodup_cons.mp hnd').1
      have hfresh' : ∀ k' ∈ rest.map Prod.fst, ∀ g ∈ acc ++ [(k, [v])], g.1 ≠ k' := by
        intro k' hk' g hg
        rcases List.mem_append.mp hg with hga | hgk
        · exact hfresh k' (by simp [hk']) g hga
        · have hgEq : g = (k, [v]) := by simpa using hgk
          subst hgEq
          intro hEq
          have hkk' : k = k' := hEq
          exact hkrest (hkk' ▸ hk')
      rw [List.foldl_cons, insertPair_of_fresh acc k v (hfresh k (by simp)),
        ih (acc ++ [(k, [v])]) (List.nodup_cons.mp hnd').2 hfresh']
      simp

theorem buildDict_of_nodup (ps : List (String × DVal))
    (h : (ps.map Prod.fst).Nodup) : buildDict ps = ps := by
  rw [buildDict, groupPairs, foldl_insertPair_of_nodup ps [] h (by simp)]
  simp only [List.nil_append, List.map_map]
  have hc : ((fun g : String × List DVal => (g.1, collapseVals g.2)) ∘
      fun p : String × DVal => (p.1, [p.2])) = fun p : String × DVal => (p.1, p.2) := by
    funext p
    simp [Function.comp, collapseVals]
  rw [hc]
  simp

theorem any_eq_isSome_alookup (d : List (String × DVal)) (k : String) :
    (d.any (fun p => p.1 == k)) = (alookup k d).isSome := by
  induction d with
  | nil => simp [alookup]
  | cons p rest ih =>
      by_cases h : p.1 = k
      · simp [alookup, h]
      · have hb : (p.1 == k) = false := by simp [h]
        simp [alookup, h, hb, ih]

theorem alookup_append {α : Type} (l1 l2 : List (String × α)) (t : String) :
    alookup t (l1 ++ l2) =
      match alookup t l1 with
      | some w => some w
      | none => alookup t l2 := by
  induction l1 with
  | nil => simp [alookup]
  | cons p rest ih =>
      by_cases h : p.1 = t
      · simp [alookup, h]
      · simp [alookup, h, ih]

theorem alookup_setdefaultD (d : List (String × DVal)) (k t : String) (v : DVal) :
    alookup t (setdefaultD d k v) =
      match alookup t d with
      | some w => some w
      | none => if k = t then some v else none := by
  rw [setdefaultD]
  by_cases hk : (alookup k d).isSome
  · rw [if_pos (by rw [any_eq_isSome_alookup]; exact hk)]
    cases ht : alookup t d with
    | some w => simp
    | none =>
        by_cases hkt : k = t
        · subst hkt
          rw [ht] at hk
          simp at hk
        · simp [hkt]
  · rw [if_neg (by rw [any_eq_isSome_alookup]; exact hk)]
    rw [alookup_append]
    cases ht : alookup t d <;> simp [alookup]

theorem alookup_apiUnwrap_foldl (cs : List XmlElem) :
    ∀ (acc : List (String × DVal)) (t : String),
      alookup t (cs.foldl (fun d c => setdefaultD d c.tag (etree_to_dict c)) acc) =
        match alookup t acc with
        | some w => some w
        | none => (cs.find? (fun c => c.tag == t)).map etree_to_dict := by
  induction cs with
  | nil => intro acc t; cases h : alookup t acc <;> simp [h]
  | cons c rest ih =>
      intro acc t
      rw [List.foldl_cons, ih, alookup_setdefaultD]
      cases h : alookup t acc with
      | some w => simp
      | none =>
          by_cases hct : c.tag = t
          · simp [List.find?, hct]
          · have hb : (c.tag == t) = false := by simp [hct]
            simp [List.find?, hct, hb]

theorem alookup_apiUnwrap (cs : List XmlElem) (t : String) :
    alookup t (apiUnwrap cs) = (cs.find? (fun c => c.tag == t)).map etree_to_dict := by
  rw [apiUnwrap, alookup_apiUnwrap_foldl]
  simp [alookup]

theorem alookup_dictSet (q : List (String × String)) (k t v : String) :
    alookup t (dictSet q k v) = if k = t then some v else alookup t q := by
  induction q with
  | nil => simp [dictSet, alookup]
  | cons p rest ih =>
      by_cases h1 : p.1 = k
      · obtain ⟨k', v'⟩ := p
        simp only at h1
        subst h1
        by_cases h2 : k' = t <;> simp [dictSet, alookup, h2]
      · obtain ⟨k', v'⟩ := p
        simp only at h1
        by_cases h2 : k' = t
        · subst h2
          have hk : k ≠ k' := fun h => h1 h.symm
          simp [dictSet, alookup, h1, hk]
        · simp [dictSet, alookup, h1, h2, ih]

theorem alookup_dictUpdate (ps : List (String × String)) :
    ∀ (q : List (String × String)) (t : String),
      alookup t (dictUpdate q ps) =
        match lastLookup t ps with
        | some w => some w
        | none => alookup t q := by
  induction ps with
  | nil => intro q t; simp [dictUpdate, lastLookup]
  | cons p rest ih =>
      intro q t
      obtain ⟨k, v⟩ := p
      rw [dictUpdate, List.foldl_cons]
      have : rest.foldl (fun acc p => dictSet acc p.1 p.2) (dictSet q k v) =
          dictUpdate (dictSet q k v) rest := rfl
      rw [this, ih, alookup_dictSet, lastLookup]
      cases hl : lastLookup t rest with
      | some w => simp
      | none => by_cases hk : k = t <;> simp [hk]

theorem lastLookup_mem (t : String) (ps : List (String × String)) (w : String)
    (h : lastLookup t ps = some w) : t ∈ ps.map Prod.fst := by
  induction ps with
  | nil => simp [lastLookup] at h
  | cons p rest ih =>
      rw [lastLookup] at h
      cases hl : lastLookup t rest with
      | some w' =>
          rw [hl] at h
          exact List.mem_cons_of_mem _ (ih (by rw [hl]; exact h))
      | none =>
          rw [hl] at h
          by_cases hk : p.1 = t
          · simp [hk]
          · simp [hk] at h
  
theorem lastLookup_eq_alookup_of_nodup (t : String) (ps : List (String × String))
    (h : (ps.map Prod.fst).Nodup) : lastLookup t ps = alookup t ps := by
  induction ps with
  | nil => simp [lastLookup, alookup]
  | cons p rest ih =>
      have hnd : (p.1 :: rest.map Prod.fst).Nodup := by simpa using h
      have hrest := ih (List.nodup_cons.mp hnd).2
      rw [lastLookup, alookup, hrest]
      cases hl : alookup t rest with
      | some w =>
          have htmem : t ∈ rest.map Prod.fst := by
            rw [← hrest] at hl
            exact lastLookup_mem t rest w hl
          have hpt : p.1 ≠ t := by
            intro hEq
            exact (List.nodup_cons.mp hnd).1 (hEq ▸ htmem)
          simp [hpt]
      | none => by_cases hk : p.1 = t <;> simp [hk]

theorem headerLookup_headerSet (hs : List (String × String)) (k v k2 : String) :
    headerLookup (headerSet hs k v) k2 =
      if asciiLower k = asciiLower k2 then some v else headerLookup hs k2 := by
  induction hs with
  | nil => simp [headerSet, headerLookup]
  | cons p rest ih =>
      obtain ⟨k', v'⟩ := p
      by_cases h1 : asciiLower k' = asciiLower k
      · rw [headerSet, if_pos h1, headerLookup]
        by_cases h2 : asciiLower k = asciiLower k2
        · rw [if_pos h2, if_pos h2]
        · rw [if_neg h2, if_neg h2, headerLookup]
          have h3 : ¬ asciiLower k' = asciiLower k2 := fun hEq => h2 (h1 ▸ hEq)
          rw [if_neg h3]
      · rw [headerSet, if_neg h1, headerLookup]
        by_cases h2 : asciiLower k' = asciiLower k2
        · have h3 : ¬ asciiLower k = asciiLower k2 := fun hEq => h1 (hEq ▸ h2)
          rw [if_pos h2, if_neg h3, headerLookup, if_pos h2]
        · rw [if_neg h2, ih, headerLookup, if_neg h2]

theorem headerLookup_auth_flow_bearer (t : String) (ht : t ≠ "")
    (hs : List (String × String)) :
    headerLookup (auth_flow ⟨none, none, none, some t⟩ hs) "Authorization" =
      some ("Bearer " ++ t) := by
  have htb : optTruthy (some t) = true := by simp [optTruthy, ht]
  rw [auth_flow]
  simp only [htb, if_true]
  rw [headerLookup_headerSet]
  simp

theorem headerLookup_auth_flow_bearer_other (t : String) (ht : t ≠ "")
    (hs : List (String × String)) (k : String)
    (hk : asciiLower "Authorization" ≠ asciiLower k) :
    headerLookup (auth_flow ⟨none, none, none, some t⟩ hs) k = headerLookup hs k := by
  have htb : optTruthy (some t) = true := by simp [optTruthy, ht]
  rw [auth_flow]
  simp only [htb, if_true]
  rw [headerLookup_headerSet]
  simp [hk]

/-- C8: constructing a client with neither a (truthy) bearer token nor a
complete (all-truthy) access/secret/app key triple makes `__init__` raise
`WFirmaAuthError` immediately, so no request is ever attempted. -/
theorem c8_auth_config_error (cfg : ClientConfig)
    (hb : optTruthy cfg.oauth2_token = false)
    (hk : ¬ (optTruthy cfg.access_key = true ∧ optTruthy cfg.secret_key = true ∧
      optTruthy cfg.app_key = true)) :
    decideAuth cfg =
      InitResult.authError
        "Provide either OAuth2 token or API Key trio (accessKey/secretKey/appKey)." := by
  have hcond : ¬ ((optTruthy cfg.access_key && optTruthy cfg.secret_key &&
      optTruthy cfg.app_key) = true) := by
    simp only [Bool.and_eq_true]
    intro h
    exact hk ⟨h.1.1, h.1.2, h.2⟩
  rw [decideAuth, if_neg (by simp [hb]), if_neg hcond]

theorem c8_witness :
    decideAuth ⟨none, some "AK", none, some "APP", none⟩ =
      InitResult.authError
        "Provide either OAuth2 token or API Key trio (accessKey/secretKey/appKey)." :=
  c8_auth_config_error ⟨none, some "AK", none, some "APP", none⟩ rfl (by decide)

/-- C10: when both a truthy bearer token and a complete truthy key triple are
supplied, construction silently succeeds in bearer mode; every request then
carries the `Authorization: Bearer <token>` header and the auth flow leaves
the `accessKey`/`secretKey`/`appKey` headers untouched (absent whenever the
base request headers lack them). -/
theorem c10_bearer_precedence (cfg : ClientConfig) (t : String)
    (htok : cfg.oauth2_token = some t) (ht : t ≠ "")
    (hkeys : optTruthy cfg.access_key = true ∧ optTruthy cfg.secret_key = true ∧
      optTruthy cfg.app_key = true)
    (hs : List (String × String)) :
    decideAuth cfg = InitResult.ok ⟨none, none, none, some t⟩ ∧
    headerLookup (auth_flow ⟨none, none, none, some t⟩ hs) "Authorization" =
      some ("Bearer " ++ t) ∧
    (∀ k, k = "accessKey" ∨ k = "secretKey" ∨ k = "appKey" →
      headerLookup (auth_flow ⟨none, none, none, some t⟩ hs) k = headerLookup hs k) := by
  refine ⟨?_, headerLookup_auth_flow_bearer t ht hs, ?_⟩
  · rw [decideAuth, if_pos (by simp [htok, optTruthy, ht]), htok]
  · intro k hk
    refine headerLookup_auth_flow_bearer_other t ht hs k ?_
    rcases hk with h | h | h <;> subst h <;> decide

theorem c10_witness :
    decideAuth ⟨none, some "AK", some "SK", some "APP", some "tok"⟩ =
      InitResult.ok ⟨none, none, none, some "tok"⟩ ∧
    headerLookup (auth_flow ⟨none, none, none, some "tok"⟩ (clientHeaders []))
        "Authorization" = some ("Bearer " ++ "tok") ∧
    (∀ k, k = "accessKey" ∨ k = "secretKey" ∨ k = "appKey" →
      headerLookup (auth_flow ⟨none, none, none, some "tok"⟩ (clientHeaders [])) k =
        headerLookup (clientHeaders []) k) :=
  c10_bearer_precedence ⟨none, some "AK", some "SK", some "APP", some "tok"⟩ "tok"
    rfl (by decide) ⟨rfl, rfl, rfl⟩ (clientHeaders [])

/-- C3: the status interpreter of `_request` — a truthy status code other
than `"OK"`/`"NO_CONTENT"` raises `WFirmaAPIError` carrying the HTTP status,
a message embedding the failing code, and the full decoded payload; a code
of `"OK"`/`"NO_CONTENT"`, or no status code at all, returns the full decoded
mapping as success. -/
theorem c3_status_interpreter (hs : Nat) (entries : List (String × DVal)) :
    (∀ code, statusCodeOf entries = some code →
      pyTruthy code = true → isStrEq code "OK" = false →
      isStrEq code "NO_CONTENT" = false →
      statusCheckOutcome hs entries =
        Outcome.apiError
          ⟨hs, "API status != OK: " ++ pyStr code,
            Payload.decoded (DVal.dict entries)⟩) ∧
    (∀ code, statusCodeOf entries = some code →
      (isStrEq code "OK" = true ∨ isStrEq code "NO_CONTENT" = true) →
      statusCheckOutcome hs entries = Outcome.ok (DVal.dict entries)) ∧
    (statusCodeOf entries = none →
      statusCheckOutcome hs entries = Outcome.ok (DVal.dict entries)) := by
  refine ⟨?_, ?_, ?_⟩
  · intro code hc h1 h2 h3
    rw [statusCheckOutcome, hc]
    simp [h1, h2, h3]
  · intro code hc hOK
    rw [statusCheckOutcome, hc]
    rcases hOK with h | h <;> simp [h]
  · intro h
    rw [statusCheckOutcome, h]

theorem c3_witness :
    statusCheckOutcome 200 [("status", DVal.dict [("code", DVal.str "ERROR")])] =
      Outcome.apiError
        ⟨200, "API status != OK: " ++ pyStr (DVal.str "ERROR"),
          Payload.decoded
            (DVal.dict [("status", DVal.dict [("code", DVal.str "ERROR")])])⟩ ∧
    statusCheckOutcome 200 [("status", DVal.dict [("code", DVal.str "OK")])] =
      Outcome.ok (DVal.dict [("status", DVal.dict [("code", DVal.str "OK")])]) ∧
    statusCheckOutcome 200 [("contractors", DVal.str "1")] =
      Outcome.ok (DVal.dict [("contractors", DVal.str "1")]) :=
  ⟨(c3_status_interpreter 200 _).1 (DVal.str "ERROR") rfl rfl rfl rfl,
   (c3_status_interpreter 200 _).2.1 (DVal.str "OK") rfl (Or.inl rfl),
   (c3_status_interpreter 200 _).2.2 rfl⟩

/-- C6: a response whose body is empty after trimming raises the transport
error `WFirmaAPIError(status, "HTTP error without body", None)` when the
transport status is not a success, and otherwise returns the synthetic
`{status: {code: "NO_CONTENT"}}` — independently of the XML parser (so it is
never a parse error). -/
theorem c6_empty_body (hs : Nat) (body : String) (parse : ParseResult)
    (h : pyStrip body = "") :
    (isSuccessStatus hs = false →
      processResponse hs body parse =
        Outcome.apiError ⟨hs, "HTTP error without body", Payload.nothing⟩) ∧
    (isSuccessStatus hs = true →
      processResponse hs body parse =
        Outcome.ok (DVal.dict [("status", DVal.dict [("code", DVal.str "NO_CONTENT")])])) := by
  constructor
  · intro hst
    rw [processResponse.eq_def]
    simp [h, hst]
  · intro hst
    rw [processResponse.eq_def]
    simp [h, hst]

theorem c6_witness :
    processResponse 500 " " (ParseResult.failure "boom") =
      Outcome.apiError ⟨500, "HTTP error without body", Payload.nothing⟩ ∧
    processResponse 204 "" (ParseResult.failure "boom") =
      Outcome.ok (DVal.dict [("status", DVal.dict [("code", DVal.str "NO_CONTENT")])]) :=
  ⟨(c6_empty_body 500 " " (ParseResult.failure "boom") rfl).1 rfl,
   (c6_empty_body 204 "" (ParseResult.failure "boom") rfl).2 rfl⟩

/-- C7: for a parsed root tagged `api`, `_request` builds the result mapping
by `setdefault` over the immediate children: each tag maps to the decoded
FIRST child bearing it, later children with an already-seen tag are
discarded and never merged into a sequence. -/
theorem c7_envelope_first_wins (root : XmlElem) (h : root.tag = "api") :
    dataDictOf root = DVal.dict (apiUnwrap root.children) ∧
    (∀ t, alookup t (apiUnwrap root.children) =
      (root.children.find? (fun c => c.tag == t)).map etree_to_dict) := by
  constructor
  · rw [dataDictOf, if_pos h]
  · intro t
    exact alookup_apiUnwrap root.children t

theorem c7_witness :
    dataDictOf
        (XmlElem.mk "api" ""
          [XmlElem.mk "invoices" "a" [], XmlElem.mk "invoices" "b" []]) =
      DVal.dict
        (apiUnwrap [XmlElem.mk "invoices" "a" [], XmlElem.mk "invoices" "b" []]) ∧
    alookup "invoices"
        (apiUnwrap [XmlElem.mk "invoices" "a" [], XmlElem.mk "invoices" "b" []]) =
      some (DVal.str "a") := by
  have h := c7_envelope_first_wins
    (XmlElem.mk "api" "" [XmlElem.mk "invoices" "a" [], XmlElem.mk "invoices" "b" []]) rfl
  refine ⟨h.1, ?_⟩
  have h2 := h.2 "invoices"
  simp only [XmlElem.children_mk] at h2
  rw [h2]
  simp [List.find?, pyStrip]
  decide

/-- C1 fails as stated: the decoder trims leaf text, so a scalar value with
surrounding whitespace is not recovered verbatim. Wrapping the single field
`description = " a "` and decoding the record element yields `"a"`, not
`" a "`. -/
theorem c1_counterexample :
    etree_to_dict (recordOf (wrap_module_body "invoices" "invoice"
        [("description", " a ")])) ≠
      DVal.dict [("description", DVal.str " a ")] := by
  have heval : etree_to_dict (recordOf (wrap_module_body "invoices" "invoice"
      [("description", " a ")])) = DVal.dict [("description", DVal.str "a")] := by
    have hrec : recordOf (wrap_module_body "invoices" "invoice" [("description", " a ")]) =
        XmlElem.mk "invoice" "" [XmlElem.mk "description" " a " []] := rfl
    rw [hrec, etree_to_dict_node]
    simp [buildDict, groupPairs, insertPair, collapseVals, pyStrip]
    decide
  rw [heval]
  intro hEq
  injection hEq with h1
  injection h1 with h2 h3
  injection h2 with h4 h5
  injection h5 with h6
  exact absurd h6 (by decide)

/-- C1, amended: for a NON-EMPTY flat field mapping (unique keys) whose
stringified scalar values are whitespace-trimmed, wrapping with
`_wrap_module_body` and decoding the record element of the resulting body
recovers exactly the original key/value pairs, every value as a string. -/
theorem c1_wrap_roundtrip (m r : String) (fields : List (String × String))
    (hne : fields ≠ [])
    (hnd : (fields.map Prod.fst).Nodup)
    (htrim : ∀ kv ∈ fields, pyStrip kv.2 = kv.2) :
    etree_to_dict (recordOf (wrap_module_body m r fields)) =
      DVal.dict (fields.map (fun kv => (kv.1, DVal.str kv.2))) := by
  have hrec : recordOf (wrap_module_body m r fields) =
      XmlElem.mk r "" (fields.map (fun kv => XmlElem.mk kv.1 kv.2 [])) := rfl
  have hdec : decodeChildren (fields.map (fun kv => XmlElem.mk kv.1 kv.2 [])) =
      fields.map (fun kv => (kv.1, DVal.str kv.2)) := by
    rw [decodeChildren_eq_map, List.map_map]
    refine List.map_congr_left ?_
    intro kv hkv
    simp [Function.comp, htrim kv hkv]
  have hnd' : ((fields.map (fun kv => (kv.1, DVal.str kv.2))).map Prod.fst).Nodup := by
    rw [List.map_map]
    simpa [Function.comp] using hnd
  rw [hrec]
  cases fields with
  | nil => exact absurd rfl hne
  | cons kv rest =>
      rw [List.map_cons, etree_to_dict_node]
      have hform : XmlElem.mk kv.1 kv.2 [] ::
          List.map (fun kv => XmlElem.mk kv.1 kv.2 []) rest =
          List.map (fun kv => XmlElem.mk kv.1 kv.2 []) (kv :: rest) := rfl
      rw [hform, hdec, buildDict_of_nodup _ hnd']

theorem c1_witness :
    etree_to_dict (recordOf (wrap_module_body "invoices" "invoice"
        [("id", "42"), ("description", "abc")])) =
      DVal.dict [("id", DVal.str "42"), ("description", DVal.str "abc")] := by
  have h := c1_wrap_roundtrip "invoices" "invoice" [("id", "42"), ("description", "abc")]
    (by decide) (by decide) (by decide)
  simpa using h

/-- C2: the general tree-decoding rule of `_etree_to_dict` — a childless
element decodes to its trimmed text (empty string when there is none); an
element with children decodes to a mapping in which a tag occurring exactly
once maps to the single recursively decoded child while a tag occurring
N > 1 times maps to the ordered list of the N recursively decoded children
in document order (never a list for N = 1). -/
theorem c2_tree_decoder (e : XmlElem) :
    (e.children = [] → etree_to_dict e = DVal.str (pyStrip e.text)) ∧
    (e.children ≠ [] →
      (∃ entries, etree_to_dict e = DVal.dict entries) ∧
      (∀ t : String,
        ((e.children.filter (fun c => c.tag == t)) = [] →
          dlookup t (etree_to_dict e) = none) ∧
        (∀ c, (e.children.filter (fun c' => c'.tag == t)) = [c] →
          dlookup t (etree_to_dict e) = some (etree_to_dict c)) ∧
        (2 ≤ (e.children.filter (fun c => c.tag == t)).length →
          dlookup t (etree_to_dict e) =
            some (DVal.lst
              ((e.children.filter (fun c => c.tag == t)).map etree_to_dict))))) := by
  obtain ⟨tag, text, cs⟩ := e
  cases cs with
  | nil =>
      constructor
      · intro _
        simp
      · intro h
        simp at h
  | cons c rest =>
      constructor
      · intro h
        simp at h
      · intro _
        simp only [XmlElem.children_mk, XmlElem.text_mk, etree_to_dict_node]
        refine ⟨⟨buildDict (decodeChildren (c :: rest)), rfl⟩, ?_⟩
        intro t
        have key : dlookup t (DVal.dict (buildDict (decodeChildren (c :: rest)))) =
            match ((c :: rest).filter (fun x => x.tag == t)).map etree_to_dict with
            | [] => none
            | vs => some (collapseVals vs) := by
          rw [dlookup, alookup_buildDict, valuesOf_decodeChildren]
        refine ⟨?_, ?_, ?_⟩
        · intro hf
          rw [key, hf]
          simp
        · intro c' hf
          rw [key, hf]
          simp [collapseVals]
        · intro hlen
          rw [key]
          cases hf : (c :: rest).filter (fun x => x.tag == t) with
          | nil => rw [hf] at hlen; simp at hlen
          | cons a l2 =>
              cases l2 with
              | nil => rw [hf] at hlen; simp at hlen
              | cons b l3 => simp [collapseVals]

theorem c2_witness :
    ((XmlElem.mk "code" " OK " []).children = [] ∧
      etree_to_dict (XmlElem.mk "code" " OK " []) =
        DVal.str (pyStrip (XmlElem.mk "code" " OK " []).text)) ∧
    (dlookup "invoice"
        (etree_to_dict (XmlElem.mk "invoices" ""
          [XmlElem.mk "invoice" "1" [], XmlElem.mk "total" "9" [],
            XmlElem.mk "invoice" "2" []])) =
      some (DVal.lst [etree_to_dict (XmlElem.mk "invoice" "1" []),
        etree_to_dict (XmlElem.mk "invoice" "2" [])])) ∧
    (dlookup "total"
        (etree_to_dict (XmlElem.mk "invoices" ""
          [XmlElem.mk "invoice" "1" [], XmlElem.mk "total" "9" [],
            XmlElem.mk "invoice" "2" []])) =
      some (etree_to_dict (XmlElem.mk "total" "9" []))) := by
  refine ⟨⟨rfl, (c2_tree_decoder (XmlElem.mk "code" " OK " [])).1 rfl⟩, ?_, ?_⟩
  · have h := (((c2_tree_decoder (XmlElem.mk "invoices" ""
        [XmlElem.mk "invoice" "1" [], XmlElem.mk "total" "9" [],
          XmlElem.mk "invoice" "2" []])).2 (by simp)).2 "invoice").2.2 (by decide)
    have hfilter : ([XmlElem.mk "invoice" "1" [], XmlElem.mk "total" "9" [],
        XmlElem.mk "invoice" "2" []].filter
          (fun c => c.tag == "invoice")) =
        [XmlElem.mk "invoice" "1" [], XmlElem.mk "invoice" "2" []] := rfl
    rw [XmlElem.children_mk] at h
    rw [hfilter] at h
    simpa using h
  · have h := (((c2_tree_decoder (XmlElem.mk "invoices" ""
        [XmlElem.mk "invoice" "1" [], XmlElem.mk "total" "9" [],
          XmlElem.mk "invoice" "2" []])).2 (by simp)).2 "total").2.1
      (XmlElem.mk "total" "9" []) rfl
    exact h

theorem alookup_withOauthVersion (hs : List (String × String))
    (q : List (String × String)) (t : String) (h : t ≠ "oauth_version") :
    alookup t (withOauthVersion hs q) = alookup t q := by
  rw [withOauthVersion]
  cases hA : headerLookup hs "Authorization" with
  | none => rfl
  | some v =>
      dsimp only
      by_cases hb : strStarts v "Bearer " = true
      · rw [if_pos hb, alookup_dictSet, if_neg (fun hEq => h hEq.symm)]
      · rw [if_neg hb]

theorem alookup_withCompany_other (cid : Option String) (q : List (String × String))
    (t : String) (h : t ≠ "company_id") :
    alookup t (withCompany cid q) = alookup t q := by
  rw [withCompany]
  by_cases hc : optTruthy cid = true
  · rw [if_pos hc, alookup_dictSet, if_neg (fun hEq => h hEq.symm)]
  · rw [if_neg hc]

theorem alookup_withCompany_self (cid : String) (q : List (String × String))
    (h : cid ≠ "") :
    alookup "company_id" (withCompany (some cid) q) = some cid := by
  rw [withCompany, if_pos (by simp [optTruthy, h]), alookup_dictSet, if_pos rfl]
  simp

/-- C5 fails as stated: `q.update(params)` runs LAST in `_request`, so a
caller-supplied `inputFormat` silently overrides the supposedly forced
format flag. -/
theorem c5_counterexample :
    alookup "inputFormat"
        (buildQuery none (clientHeaders []) [("inputFormat", "json")]) =
      some "json" ∧
    alookup "inputFormat"
        (buildQuery none (clientHeaders []) [("inputFormat", "json")]) ≠
      some "xml" := by
  refine ⟨rfl, ?_⟩
  intro h
  have h1 : alookup "inputFormat"
      (buildQuery none (clientHeaders []) [("inputFormat", "json")]) = some "json" := rfl
  rw [h1] at h
  exact absurd (Option.some.inj h) (by decide)

/-- C5, amended: the fixed keys (`inputFormat`, `outputFormat`, and
`company_id` when configured truthy) are all present in the sent query, and
a caller value for the same key overrides the fixed default for EVERY key —
including the format flags, which are defaults, not forced. -/
theorem c5_query_merge (company_id : Option String)
    (clientHdrs : List (String × String)) (params : List (String × String))
    (hnd : (params.map Prod.fst).Nodup) :
    (∀ k v, alookup k params = some v →
      alookup k (buildQuery company_id clientHdrs params) = some v) ∧
    (alookup "inputFormat" params = none →
      alookup "inputFormat" (buildQuery company_id clientHdrs params) = some "xml") ∧
    (alookup "outputFormat" params = none →
      alookup "outputFormat" (buildQuery company_id clientHdrs params) = some "xml") ∧
    (∀ cid, company_id = some cid → cid ≠ "" → alookup "company_id" params = none →
      alookup "company_id" (buildQuery company_id clientHdrs params) = some cid) ∧
    ((alookup "inputFormat" (buildQuery company_id clientHdrs params)).isSome = true) ∧
    ((alookup "outputFormat" (buildQuery company_id clientHdrs params)).isSome = true) ∧
    (∀ cid, company_id = some cid → cid ≠ "" →
      (alookup "company_id" (buildQuery company_id clientHdrs params)).isSome = true) := by
  have hb : ∀ t, alookup t (buildQuery company_id clientHdrs params) =
      match alookup t params with
      | some w => some w
      | none => alookup t (withOauthVersion clientHdrs (withCompany company_id baseQuery)) := by
    intro t
    rw [buildQuery, alookup_dictUpdate, lastLookup_eq_alookup_of_nodup t params hnd]
  have hin : alookup "inputFormat" params = none →
      alookup "inputFormat" (buildQuery company_id clientHdrs params) = some "xml" := by
    intro h
    rw [hb _, h]
    rw [alookup_withOauthVersion _ _ _ (by decide),
      alookup_withCompany_other _ _ _ (by decide)]
    rfl
  have hout : alookup "outputFormat" params = none →
      alookup "outputFormat" (buildQuery company_id clientHdrs params) = some "xml" := by
    intro h
    rw [hb _, h]
    rw [alookup_withOauthVersion _ _ _ (by decide),
      alookup_withCompany_other _ _ _ (by decide)]
    rfl
  have hover : ∀ k v, alookup k params = some v →
      alookup k (buildQuery company_id clientHdrs params) = some v := by
    intro k v h
    rw [hb k, h]
  have hcid : ∀ cid, company_id = some cid → cid ≠ "" →
      alookup "company_id" params = none →
      alookup "company_id" (buildQuery company_id clientHdrs params) = some cid := by
    intro cid hcomp hne h
    rw [hb _, h, hcomp]
    rw [alookup_withOauthVersion _ _ _ (by decide), alookup_withCompany_self cid _ hne]
  refine ⟨hover, hin, hout, hcid, ?_, ?_, ?_⟩
  · cases hp : alookup "inputFormat" params with
    | some v => rw [hover _ _ hp]; rfl
    | none => rw [hin hp]; rfl
  · cases hp : alookup "outputFormat" params with
    | some v => rw [hover _ _ hp]; rfl
    | none => rw [hout hp]; rfl
  · intro cid hcomp hne
    cases hp : alookup "company_id" params with
    | some v => rw [hover _ _ hp]; rfl
    | none => rw [hcid cid hcomp hne hp]; rfl

theorem c5_witness :
    alookup "page" (buildQuery (some "77") (clientHeaders []) [("page", "2")]) =
      some "2" ∧
    alookup "inputFormat" (buildQuery (some "77") (clientHeaders []) [("page", "2")]) =
      some "xml" ∧
    alookup "outputFormat" (buildQuery (some "77") (clientHeaders []) [("page", "2")]) =
      some "xml" ∧
    alookup "company_id" (buildQuery (some "77") (clientHeaders []) [("page", "2")]) =
      some "77" := by
  have h := c5_query_merge (some "77") (clientHeaders []) [("page", "2")] (by decide)
  exact ⟨h.1 "page" "2" rfl, h.2.1 rfl, h.2.2.1 rfl, h.2.2.2.1 "77" rfl (by decide) rfl⟩

/-- C9 fails as stated only for a present-but-empty field list: `if fields:`
is a truthiness test, so `fields=[]` omits the `<fields>` element entirely
even though its source value is not absent. -/
theorem c9_counterexample :
    parametersChildren (build_parameters_xml "invoices" none none (some [])) = [] ∧
    ¬ ∃ e ∈ parametersChildren (build_parameters_xml "invoices" none none (some [])),
        e.tag = "fields" := by
  refine ⟨rfl, ?_⟩
  rintro ⟨e, he, -⟩
  have h0 : parametersChildren (build_parameters_xml "invoices" none none (some [])) =
      [] := rfl
  rw [h0] at he
  simp at he

/-- C9, amended: `<parameters>` holds the optional `<page>`, then the
optional `<limit>`, then the `<fields>` element (one `<field>` per entry) —
always in that order — where `<page>`/`<limit>` are omitted when their
source value is absent and `<fields>` is omitted when the field list is
absent OR empty. -/
theorem c9_parameters_layout (m : String) (page limit : Option Int)
    (fields : Option (List String)) :
    ((parametersChildren (build_parameters_xml m page limit fields)).filter
        (fun c => c.tag == "page") =
      (match page with
       | some p => [XmlElem.mk "page" (toString p) []]
       | none => [])) ∧
    ((parametersChildren (build_parameters_xml m page limit fields)).filter
        (fun c => c.tag == "limit") =
      (match limit with
       | some l => [XmlElem.mk "limit" (toString l) []]
       | none => [])) ∧
    ((parametersChildren (build_parameters_xml m page limit fields)).filter
        (fun c => c.tag == "fields") =
      (match fields with
       | some (f :: fs) =>
          [XmlElem.mk "fields" "" ((f :: fs).map (fun x => XmlElem.mk "field" x []))]
       | _ => [])) ∧
    (parametersChildren (build_parameters_xml m page limit fields) =
      (parametersChildren (build_parameters_xml m page limit fields)).filter
          (fun c => c.tag == "page") ++
      (parametersChildren (build_parameters_xml m page limit fields)).filter
          (fun c => c.tag == "limit") ++
      (parametersChildren (build_parameters_xml m page limit fields)).filter
          (fun c => c.tag == "fields")) := by
  have hpc : parametersChildren (build_parameters_xml m page limit fields) =
      (match page with
       | some p => [XmlElem.mk "page" (toString p) []]
       | none => []) ++
      (match limit with
       | some l => [XmlElem.mk "limit" (toString l) []]
       | none => []) ++
      (match fields with
       | some (f :: fs) =>
          [XmlElem.mk "fields" "" ((f :: fs).map (fun x => XmlElem.mk "field" x []))]
       | _ => []) := rfl
  rw [hpc]
  rcases page with _ | p <;> rcases limit with _ | l <;>
    rcases fields with _ | (_ | ⟨f, fs⟩) <;>
      simp [List.filter]

/-- C4 is a code bug: the repo's own test and in-code comment require every
bearer-mode request to carry `oauth_version=2`, but `_request` looks for the
Bearer header in `self._client.headers`, which the per-request auth flow
never populates. For a standard bearer-mode client the Authorization header
is absent at client level, so `oauth_version` never reaches the query, even
though the Bearer header itself is correctly attached to the request and no
key headers are sent. -/
theorem c4_oauth_version_code_bug :
    decideAuth ⟨some "321", none, none, none, some "bearer-token"⟩ =
      InitResult.ok ⟨none, none, none, some "bearer-token"⟩ ∧
    headerLookup (clientHeaders []) "Authorization" = none ∧
    alookup "oauth_version" (buildQuery (some "321") (clientHeaders []) []) = none ∧
    headerLookup
        (auth_flow ⟨none, none, none, some "bearer-token"⟩ (clientHeaders []))
        "Authorization" = some ("Bearer " ++ "bearer-token") ∧
    headerLookup
        (auth_flow ⟨none, none, none, some "bearer-token"⟩ (clientHeaders []))
        "accessKey" = none ∧
    headerLookup
        (auth_flow ⟨none, none, none, some "bearer-token"⟩ (clientHeaders []))
        "secretKey" = none ∧
    headerLookup
        (auth_flow ⟨none, none, none, some "bearer-token"⟩ (clientHeaders []))
        "appKey" = none ∧
    alookup "inputFormat" (buildQuery (some "321") (clientHeaders []) []) =
      some "xml" ∧
    alookup "company_id" (buildQuery (some "321") (clientHeaders []) []) =
      some "321" :=
  ⟨rfl, rfl, rfl, rfl, rfl, rfl, rfl, rfl, rfl⟩
